import Mathlib

/-!
# Verification of the bpy-widget camera, compositor and rendering core

Shallow embedding of `src/bpy_widget/core/camera.py`,
`src/bpy_widget/core/post_processing.py`, `src/bpy_widget/core/rendering.py`
and `src/bpy_widget/widget.py`, together with proofs about the claims of the
specification.  Floating point numbers are modelled by real numbers where
trigonometry is involved (camera code) and by rationals where only ordering,
clamping and truncation matter (pixel normalisation).
-/

namespace BpyWidget

/-! ## Camera model (`core/camera.py`)

`math.atan2 y x` is the angle of the point `(x, y)`, i.e. the argument of the
complex number `x + y·i`, with the convention `atan2 0 0 = 0`; `Complex.arg`
has exactly this range `(-π, π]` and convention. -/

noncomputable def atan2 (y x : ℝ) : ℝ := Complex.arg ((x : ℂ) + (y : ℂ) * Complex.I)

/-- Embedding of `calculate_spherical_from_position(location, target)`
(camera.py lines 87–97): relative coordinates, Euclidean distance, and the two
guarded `atan2` calls. -/
noncomputable def calculate_spherical_from_position
    (location target : ℝ × ℝ × ℝ) : ℝ × ℝ × ℝ :=
  let x := location.1 - target.1
  let y := location.2.1 - target.2.1
  let z := location.2.2 - target.2.2
  let distance := Real.sqrt (x * x + y * y + z * z)
  let angle_x := if 0 < distance then atan2 z (Real.sqrt (x * x + y * y)) else 0
  let angle_z := if 0 < distance then atan2 y x else 0
  (distance, angle_x, angle_z)

/-- The spherical-to-Cartesian formula used by `update_camera_spherical`
(camera.py lines 70–73) and `setup_camera` (lines 22–24). -/
noncomputable def sphericalToCartesian
    (distance angle_x angle_z : ℝ) (target : ℝ × ℝ × ℝ) : ℝ × ℝ × ℝ :=
  (target.1 + distance * Real.cos angle_x * Real.cos angle_z,
   target.2.1 + distance * Real.cos angle_x * Real.sin angle_z,
   target.2.2 + distance * Real.sin angle_x)

/-- C8: at zero distance both angle guards fail and the function returns
`(0, 0, 0)` exactly. -/
theorem spherical_zero_distance (p : ℝ × ℝ × ℝ) :
    calculate_spherical_from_position p p = (0, 0, 0) := by
  simp [calculate_spherical_from_position]

theorem atan2_of_pos_real {x : ℝ} (hx : 0 < x) : atan2 0 x = 0 := by
  unfold atan2
  simp [Complex.arg_ofReal_of_nonneg hx.le]

theorem atan2_cos_sin {r θ : ℝ} (hr : 0 < r) (hθ : θ ∈ Set.Ioc (-Real.pi) Real.pi) :
    atan2 (r * Real.sin θ) (r * Real.cos θ) = θ := by
  unfold atan2
  have h : ((r * Real.cos θ : ℝ) : ℂ) + ((r * Real.sin θ : ℝ) : ℂ) * Complex.I
      = (r : ℂ) * ((Real.cos θ : ℂ) + (Real.sin θ : ℂ) * Complex.I) := by
    push_cast
    ring
  rw [h, Complex.arg_real_mul _ hr, Complex.ofReal_cos, Complex.ofReal_sin,
    Complex.arg_cos_add_sin_mul_I hθ]

/-- C1 (amended): for elevation strictly inside `(-π/2, π/2)` the spherical →
Cartesian → spherical round trip is the identity (exactly, over the reals). -/
theorem spherical_round_trip (d e a : ℝ) (t : ℝ × ℝ × ℝ)
    (hd : 0 < d) (he : e ∈ Set.Ioo (-(Real.pi / 2)) (Real.pi / 2))
    (ha : a ∈ Set.Ioc (-Real.pi) Real.pi) :
    calculate_spherical_from_position (sphericalToCartesian d e a t) t = (d, e, a) := by
  have hcos : 0 < Real.cos e := Real.cos_pos_of_mem_Ioo he
  have hdc : 0 < d * Real.cos e := mul_pos hd hcos
  have hpi : 0 < Real.pi := Real.pi_pos
  simp only [calculate_spherical_from_position, sphericalToCartesian, add_sub_cancel_left]
  have hxy : d * Real.cos e * Real.cos a * (d * Real.cos e * Real.cos a) +
      d * Real.cos e * Real.sin a * (d * Real.cos e * Real.sin a)
      = (d * Real.cos e) ^ 2 := by
    have h1 := Real.sin_sq_add_cos_sq a
    linear_combination (d * Real.cos e) ^ 2 * h1
  have hall : d * Real.cos e * Real.cos a * (d * Real.cos e * Real.cos a) +
      d * Real.cos e * Real.sin a * (d * Real.cos e * Real.sin a) +
      d * Real.sin e * (d * Real.sin e) = d ^ 2 := by
    have h1 := Real.sin_sq_add_cos_sq a
    have h2 := Real.sin_sq_add_cos_sq e
    linear_combination (d * Real.cos e) ^ 2 * h1 + d ^ 2 * h2
  rw [hall, hxy, Real.sqrt_sq hd.le, Real.sqrt_sq hdc.le, if_pos hd, if_pos hd]
  have he' : e ∈ Set.Ioc (-Real.pi) Real.pi :=
    ⟨by have := he.1; linarith, by have := he.2; linarith⟩
  rw [atan2_cos_sin hd he', atan2_cos_sin hdc ha]

/-- Witness for `spherical_round_trip` at `d = 1`, `e = 0`, `a = 0`,
target at the origin. -/
theorem spherical_round_trip_witness :
    calculate_spherical_from_position (sphericalToCartesian 1 0 0 (0, 0, 0)) (0, 0, 0)
      = (1, 0, 0) :=
  spherical_round_trip 1 0 0 (0, 0, 0) one_pos
    ⟨neg_lt_zero.2 (half_pos Real.pi_pos), half_pos Real.pi_pos⟩
    ⟨neg_lt_zero.2 Real.pi_pos, Real.pi_pos.le⟩

theorem atan2_zero_neg_one : atan2 0 (-1) = Real.pi := by
  unfold atan2
  norm_num [Complex.arg_neg_one]

theorem atan2_zero_one : atan2 0 1 = 0 := by
  unfold atan2
  norm_num [Complex.arg_one]

/-- C1 (counterexample): the claim ranges over every elevation in `(-π, π]`
other than `±π/2`.  At elevation `π` (with distance `1`, azimuth `0`, target
at the origin) the round trip returns `(1, 0, π)`, not `(1, π, 0)`: the
recovered elevation always lies in `[-π/2, π/2]`. -/
theorem spherical_round_trip_cex :
    0 < (1 : ℝ) ∧ Real.pi ∈ Set.Ioc (-Real.pi) Real.pi ∧
    Real.pi ≠ Real.pi / 2 ∧ Real.pi ≠ -(Real.pi / 2) ∧
    (0 : ℝ) ∈ Set.Ioc (-Real.pi) Real.pi ∧
    calculate_spherical_from_position
      (sphericalToCartesian 1 Real.pi 0 (0, 0, 0)) (0, 0, 0) ≠ (1, Real.pi, 0) := by
  have hpi : 0 < Real.pi := Real.pi_pos
  have hc : sphericalToCartesian 1 Real.pi 0 (0, 0, 0) = (-1, 0, 0) := by
    simp [sphericalToCartesian, Real.cos_pi, Real.sin_pi]
  have h2 : calculate_spherical_from_position (-1, 0, 0) (0, 0, 0) = (1, 0, Real.pi) := by
    simp only [calculate_spherical_from_position]
    norm_num [Real.sqrt_one, atan2_zero_one, atan2_zero_neg_one]
  refine ⟨one_pos, ⟨by linarith, le_refl _⟩, by intro h; linarith, by intro h; linarith,
    ⟨by linarith, hpi.le⟩, ?_⟩
  rw [hc, h2]
  intro hEq
  have h3 : Real.pi = 0 := congrArg (fun p : ℝ × ℝ × ℝ => p.2.2) hEq
  exact Real.pi_ne_zero h3

/-! ## Compositor node graph (`core/post_processing.py`)

Nodes are identified by a creation counter (Blender node objects have
identity); `ntype` is the node's `type` tag as tested by the source
(`'R_LAYERS'`, `'COMPOSITE'`, `'GLARE'`, …).  Links record from/to node ids
and socket names.  Effect parameters (threshold, mix factor, …) are set on
node properties and never influence the graph wiring, so they are not part of
the state.  Blender's MixRGB node has two image inputs at indices 1 and 2,
both named `Image`; since only the composite node's `Image` input name is
ever scanned by the source, they are modelled with the distinct names
`Image1`/`Image2`. -/

structure CNode where
  nid : Nat
  ntype : String
deriving DecidableEq, Repr

structure CLink where
  fromNode : Nat
  fromSocket : String
  toNode : Nat
  toSocket : String
deriving DecidableEq, Repr

structure NodeTree where
  nodes : List CNode
  links : List CLink
  nextId : Nat
deriving DecidableEq, Repr

/-- `tree.nodes.new(...)`: appends a fresh node. -/
def newNode (t : NodeTree) (ty : String) : NodeTree × CNode :=
  let n : CNode := ⟨t.nextId, ty⟩
  ({ t with nodes := t.nodes ++ [n], nextId := t.nextId + 1 }, n)

/-- `tree.links.new(from_socket, to_socket)`: appends a link. -/
def newLink (t : NodeTree) (f : Nat) (fs : String) (g : Nat) (gs : String) : NodeTree :=
  { t with links := t.links ++ [⟨f, fs, g, gs⟩] }

def isComposite (n : CNode) : Bool := n.ntype == "COMPOSITE"

def feedsSink (cid : Nat) (l : CLink) : Bool := l.toNode == cid && l.toSocket == "Image"

/-- `for link in list(links): if link.to_node == composite and
link.to_socket.name == 'Image': links.remove(link)` — removes every link into
the composite node's Image input. -/
def removeSinkLinks (t : NodeTree) (cid : Nat) : NodeTree :=
  { t with links := t.links.filter (fun l => !feedsSink cid l) }

/-- `setup_extended_compositor()` (post_processing.py lines 9–45): clears the
tree, creates render-layers, composite and viewer nodes and wires
render-layers → composite directly.  (The `use_nodes` / GPU-compositing scene
flags have no effect on the graph.) -/
def setup_extended_compositor : NodeTree :=
  let t0 : NodeTree := ⟨[], [], 0⟩
  let (t1, rl) := newNode t0 "R_LAYERS"
  let (t2, comp) := newNode t1 "COMPOSITE"
  let (t3, _viewer) := newNode t2 "VIEWER"
  newLink t3 rl.nid "Image" comp.nid "Image"

/-- `add_bloom_glare` (lines 48–92).  `none` scene = no node tree.  Returns
the mutated tree and the id of the returned node (or `none`). -/
def add_bloom_glare (scene : Option NodeTree) : Option NodeTree × Option Nat :=
  match scene with
  | none => (none, none)
  | some t =>
    match t.nodes.find? (fun n => n.ntype == "R_LAYERS") with
    | none => (some t, none)
    | some rl =>
      let (t1, glare) := newNode t "GLARE"
      match t1.nodes.find? isComposite with
      | none => (some t1, some glare.nid)
      | some comp =>
        let t2 := removeSinkLinks t1 comp.nid
        let t3 := newLink t2 rl.nid "Image" glare.nid "Image"
        let t4 := newLink t3 glare.nid "Image" comp.nid "Image"
        (some t4, some glare.nid)

/-- The source/target scan of `add_color_correction` (lines 126–137): the
source is the last `GLARE` node, or the first `R_LAYERS` node seen while no
source has been found yet; the target is the last `COMPOSITE` node. -/
def ccStep (acc : Option CNode × Option CNode) (n : CNode) : Option CNode × Option CNode :=
  (if n.ntype == "GLARE" then some n
    else if n.ntype == "R_LAYERS" && acc.1.isNone then some n
    else acc.1,
   if isComposite n then some n else acc.2)

def ccScan (ns : List CNode) : Option CNode × Option CNode :=
  ns.foldl ccStep (none, none)

/-- `add_color_correction` (lines 95–151): creates the three colour nodes
first, then scans for source/target and rewires if both were found. -/
def add_color_correction (scene : Option NodeTree) : Option NodeTree × Option Nat :=
  match scene with
  | none => (none, none)
  | some t =>
    let (t1, bc) := newNode t "BRIGHTCONTRAST"
    let (t2, hs) := newNode t1 "HUE_SAT"
    let (t3, cb) := newNode t2 "COLORBALANCE"
    match ccScan t3.nodes with
    | (some src, some tgt) =>
      let t4 := removeSinkLinks t3 tgt.nid
      let t5 := newLink t4 src.nid "Image" bc.nid "Image"
      let t6 := newLink t5 bc.nid "Image" hs.nid "Image"
      let t7 := newLink t6 hs.nid "Image" cb.nid "Image"
      let t8 := newLink t7 cb.nid "Image" tgt.nid "Image"
      (some t8, some cb.nid)
    | _ => (some t3, some cb.nid)

/-- The `for link in links: … break` search for the link currently feeding the
composite's Image input, shared by vignette / film grain / chromatic
aberration / sharpen. -/
def findSinkFeeder (t : NodeTree) (cid : Nat) : Option (Nat × String) :=
  (t.links.find? (feedsSink cid)).map (fun l => (l.fromNode, l.fromSocket))

/-- `links.remove(link)` of the first link feeding the sink. -/
def removeFirstSinkLink (t : NodeTree) (cid : Nat) : NodeTree :=
  { t with links := t.links.eraseP (feedsSink cid) }

/-- Vignette's fallback (lines 182–187): node types created by this module
whose outputs contain an `Image` socket, in Blender's socket layout. -/
def hasImageOutput (n : CNode) : Bool :=
  ["R_LAYERS", "GLARE", "BRIGHTCONTRAST", "HUE_SAT", "COLORBALANCE",
   "MIX_RGB", "LENSDIST", "FILTER"].contains n.ntype

/-- `add_vignette` (lines 154–215). -/
def add_vignette (scene : Option NodeTree) : Option NodeTree × Option Nat :=
  match scene with
  | none => (none, none)
  | some t =>
    match t.nodes.find? isComposite with
    | none => (some t, none)
    | some comp =>
      let feeder := findSinkFeeder t comp.nid
      let t1 := match feeder with
        | some _ => removeFirstSinkLink t comp.nid
        | none => t
      let src : Option (Nat × String) := match feeder with
        | some s => some s
        | none => (t.nodes.find? hasImageOutput).map (fun n => (n.nid, "Image"))
      match src with
      | none => (some t1, none)
      | some (sn, ss) =>
        let (t2, ellipse) := newNode t1 "ELLIPSE_MASK"
        let (t3, invert) := newNode t2 "INVERT"
        let (t4, mix) := newNode t3 "MIX_RGB"
        let t5 := newLink t4 ellipse.nid "Mask" invert.nid "Color"
        let t6 := newLink t5 invert.nid "Color" mix.nid "Image2"
        let t7 := newLink t6 sn ss mix.nid "Image1"
        let t8 := newLink t7 mix.nid "Image" comp.nid "Image"
        (some t8, some mix.nid)

/-- `add_film_grain` (lines 218–270).  (The noise-texture datablock attached
to the texture node does not appear in the graph.) -/
def add_film_grain (scene : Option NodeTree) : Option NodeTree × Option Nat :=
  match scene with
  | none => (none, none)
  | some t =>
    match t.nodes.find? isComposite with
    | none => (some t, none)
    | some comp =>
      match findSinkFeeder t comp.nid with
      | none => (some t, none)
      | some (sn, ss) =>
        let t1 := removeFirstSinkLink t comp.nid
        let (t2, tex) := newNode t1 "TEXTURE"
        let (t3, mix) := newNode t2 "MIX_RGB"
        let t4 := newLink t3 sn ss mix.nid "Image1"
        let t5 := newLink t4 tex.nid "Color" mix.nid "Image2"
        let t6 := newLink t5 mix.nid "Image" comp.nid "Image"
        (some t6, some mix.nid)

/-- `add_chromatic_aberration` (lines 273–315). -/
def add_chromatic_aberration (scene : Option NodeTree) : Option NodeTree × Option Nat :=
  match scene with
  | none => (none, none)
  | some t =>
    match t.nodes.find? isComposite with
    | none => (some t, none)
    | some comp =>
      match findSinkFeeder t comp.nid with
      | none => (some t, none)
      | some (sn, ss) =>
        let t1 := removeFirstSinkLink t comp.nid
        let (t2, lens) := newNode t1 "LENSDIST"
        let t3 := newLink t2 sn ss lens.nid "Image"
        let t4 := newLink t3 lens.nid "Image" comp.nid "Image"
        (some t4, some lens.nid)

/-- `add_sharpen` (lines 353–401). -/
def add_sharpen (scene : Option NodeTree) : Option NodeTree × Option Nat :=
  match scene with
  | none => (none, none)
  | some t =>
    match t.nodes.find? isComposite with
    | none => (some t, none)
    | some comp =>
      match findSinkFeeder t comp.nid with
      | none => (some t, none)
      | some (sn, ss) =>
        let t1 := removeFirstSinkLink t comp.nid
        let (t2, filter_node) := newNode t1 "FILTER"
        let (t3, mix) := newNode t2 "MIX_RGB"
        let t4 := newLink t3 sn ss filter_node.nid "Image"
        let t5 := newLink t4 sn ss mix.nid "Image1"
        let t6 := newLink t5 filter_node.nid "Image" mix.nid "Image2"
        let t7 := newLink t6 mix.nid "Image" comp.nid "Image"
        (some t7, some mix.nid)

/-- Colour correction inserted into the initialized graph, then bloom/glare. -/
def ccThenBloom : Option NodeTree :=
  (add_bloom_glare (add_color_correction (some setup_extended_compositor)).1).1

/-- Bloom/glare inserted into the initialized graph, then colour correction. -/
def bloomThenCC : Option NodeTree :=
  (add_color_correction (add_bloom_glare (some setup_extended_compositor)).1).1

/-- C6: on a scene without a node tree every effect insertion is a pure no-op
returning the `None` "unavailable" signal. -/
theorem effects_unavailable_without_tree :
    add_bloom_glare none = (none, none) ∧ add_color_correction none = (none, none) ∧
    add_vignette none = (none, none) ∧ add_film_grain none = (none, none) ∧
    add_chromatic_aberration none = (none, none) ∧ add_sharpen none = (none, none) :=
  ⟨rfl, rfl, rfl, rfl, rfl, rfl⟩

/-- C2 (counterexample): inserting colour correction (`E1`) and then
bloom/glare (`E2`) into the initialized graph does not produce the chain
source → E1 → E2 → sink.  The colour-correction scan has wired
render-layers (0) → 3 → 4 → 5 into the sink, but `add_bloom_glare` then wires
the glare node (6) directly from the render-layers node: afterwards the sink
is fed by the glare node, the glare node is fed by the render-layers node,
and the colour-balance tail node (5) has no outgoing link at all. -/
theorem cc_then_bloom_cex :
    (add_color_correction (some setup_extended_compositor)).2 = some 5 ∧
    (add_bloom_glare (add_color_correction (some setup_extended_compositor)).1).2 = some 6 ∧
    ccThenBloom.map (fun t => t.links.filter (feedsSink 1)) =
      some [⟨6, "Image", 1, "Image"⟩] ∧
    ccThenBloom.map (fun t => t.links.filter (fun l => l.toNode == 6)) =
      some [⟨0, "Image", 6, "Image"⟩] ∧
    ccThenBloom.map (fun t => t.links.countP (fun l => l.fromNode == 5)) = some 0 := by
  decide

/-- C2 (amended): inserting bloom/glare first and colour correction second
yields the chain render-layers (0) → glare (3) → bright/contrast (4) →
hue/sat (5) → colour-balance (6) → composite (1); in the opposite order the
final links show the sink fed by the glare node straight from the
render-layers node, with the colour-correction chain 0 → 3 → 4 → 5 left
dangling. -/
theorem insertion_order_chains :
    bloomThenCC = some ⟨
      [⟨0, "R_LAYERS"⟩, ⟨1, "COMPOSITE"⟩, ⟨2, "VIEWER"⟩, ⟨3, "GLARE"⟩,
       ⟨4, "BRIGHTCONTRAST"⟩, ⟨5, "HUE_SAT"⟩, ⟨6, "COLORBALANCE"⟩],
      [⟨0, "Image", 3, "Image"⟩, ⟨3, "Image", 4, "Image"⟩, ⟨4, "Image", 5, "Image"⟩,
       ⟨5, "Image", 6, "Image"⟩, ⟨6, "Image", 1, "Image"⟩], 7⟩ ∧
    ccThenBloom = some ⟨
      [⟨0, "R_LAYERS"⟩, ⟨1, "COMPOSITE"⟩, ⟨2, "VIEWER"⟩, ⟨3, "BRIGHTCONTRAST"⟩,
       ⟨4, "HUE_SAT"⟩, ⟨5, "COLORBALANCE"⟩, ⟨6, "GLARE"⟩],
      [⟨0, "Image", 3, "Image"⟩, ⟨3, "Image", 4, "Image"⟩, ⟨4, "Image", 5, "Image"⟩,
       ⟨0, "Image", 6, "Image"⟩, ⟨6, "Image", 1, "Image"⟩], 7⟩ := by
  decide

/-! ### The single-sink-feeder invariant (C3) -/

/-- Number of links into the Image input of the (first) composite node. -/
def sinkLinkCount (t : NodeTree) : Nat :=
  match t.nodes.find? isComposite with
  | some c => t.links.countP (feedsSink c.nid)
  | none => 0

/-- Well-formedness of a compositor graph: node ids are below the creation
counter (so freshly created nodes are distinct from existing ones), there is
exactly one composite (sink) node, and exactly one link feeds its Image
input. -/
def graphInv (t : NodeTree) : Prop :=
  (∀ n ∈ t.nodes, n.nid < t.nextId) ∧
  t.nodes.countP isComposite = 1 ∧
  sinkLinkCount t = 1

instance graphInv_decidable (t : NodeTree) : Decidable (graphInv t) := by
  unfold graphInv
  infer_instance

/-- Lifting `graphInv` to the optional tree returned by the effect ops. -/
def graphInvO : Option NodeTree → Prop
  | some t => graphInv t
  | none => False

theorem find?_append_some {α} (p : α → Bool) {l₁ : List α} (l₂ : List α) {a : α}
    (h : l₁.find? p = some a) : (l₁ ++ l₂).find? p = some a := by
  induction l₁ with
  | nil => simp at h
  | cons x xs ih =>
    rw [List.cons_append]
    by_cases hx : p x
    · rw [List.find?_cons_of_pos _ hx] at h ⊢
      exact h
    · rw [List.find?_cons_of_neg _ hx] at h ⊢
      exact ih h

theorem countP_filter_not {α} (p : α → Bool) (l : List α) :
    (l.filter (fun a => !p a)).countP p = 0 := by
  rw [List.countP_eq_zero]
  intro a ha
  have h := List.mem_filter.1 ha
  simp only [Bool.not_eq_true'] at h
  simp [h.2]

theorem countP_eraseP_of_countP_eq_one {α} (p : α → Bool) (l : List α)
    (h : l.countP p = 1) : (l.eraseP p).countP p = 0 := by
  induction l with
  | nil => simp at h
  | cons x xs ih =>
    by_cases hx : p x
    · rw [List.eraseP_cons_of_pos hx]
      rw [List.countP_cons, if_pos hx] at h
      omega
    · rw [List.eraseP_cons_of_neg hx, List.countP_cons, if_neg hx]
      rw [List.countP_cons, if_neg hx] at h
      simpa using ih (by omega)

theorem foldl_last_no_match {α} {p : α → Bool} {l : List α}
    (h : ∀ n ∈ l, p n = false) (acc : Option α) :
    l.foldl (fun a n => if p n then some n else a) acc = acc := by
  induction l generalizing acc with
  | nil => rfl
  | cons x xs ih =>
    have hx := h x (List.mem_cons_self x xs)
    rw [List.foldl_cons, if_neg (by simp [hx])]
    exact ih (fun n hn => h n (List.mem_cons_of_mem _ hn)) acc

/-- In a list with exactly one `p`-match, scanning from the front and keeping
the last match agree: both return the unique matching element. -/
theorem find?_eq_foldl_last_of_countP_one {α} {p : α → Bool} {l : List α}
    (h : l.countP p = 1) :
    ∃ c, l.find? p = some c ∧ p c = true ∧
      l.foldl (fun a n => if p n then some n else a) none = some c := by
  induction l with
  | nil => simp at h
  | cons x xs ih =>
    by_cases hx : p x
    · have hxs : xs.countP p = 0 := by
        rw [List.countP_cons, if_pos hx] at h
        omega
      have hno : ∀ n ∈ xs, p n = false := by
        intro n hn
        have := List.countP_eq_zero.1 hxs n hn
        simpa using this
      refine ⟨x, List.find?_cons_of_pos _ hx, hx, ?_⟩
      rw [List.foldl_cons, if_pos hx]
      exact foldl_last_no_match hno (some x)
    · have hxs : xs.countP p = 1 := by
        rw [List.countP_cons, if_neg hx] at h
        omega
      obtain ⟨c, h1, h2, h3⟩ := ih hxs
      refine ⟨c, ?_, h2, ?_⟩
      · rw [List.find?_cons_of_neg _ hx]
        exact h1
      · rw [List.foldl_cons, if_neg hx]
        exact h3

/-- Generic shape of every rewiring insertion: some non-composite nodes with
fresh ids are appended and the links are replaced by a list with exactly one
link into the sink; this preserves `graphInv`. -/
theorem graphInv_mk (nodes0 : List CNode) (nextId0 k : Nat) (links2 : List CLink)
    (c : CNode) (newNodes : List CNode)
    (hfind : nodes0.find? isComposite = some c)
    (hfresh : ∀ n ∈ nodes0, n.nid < nextId0)
    (hcomp : nodes0.countP isComposite = 1)
    (hnew_fresh : ∀ n ∈ newNodes, n.nid < nextId0 + k)
    (hnew_noncomp : ∀ n ∈ newNodes, isComposite n = false)
    (hl : links2.countP (feedsSink c.nid) = 1) :
    graphInv ⟨nodes0 ++ newNodes, links2, nextId0 + k⟩ := by
  refine ⟨?_, ?_, ?_⟩
  · intro n hn
    rcases List.mem_append.1 hn with hmem | hmem
    · exact lt_of_lt_of_le (hfresh n hmem) (Nat.le_add_right _ _)
    · exact hnew_fresh n hmem
  · rw [List.countP_append, hcomp]
    have hz : newNodes.countP isComposite = 0 :=
      List.countP_eq_zero.2 (fun n hn => by simp [hnew_noncomp n hn])
    omega
  · unfold sinkLinkCount
    simp only [find?_append_some _ _ hfind]
    exact hl

theorem graphInv_dest {t : NodeTree} (h : graphInv t) :
    (∀ n ∈ t.nodes, n.nid < t.nextId) ∧ t.nodes.countP isComposite = 1 ∧
    ∃ c, t.nodes.find? isComposite = some c ∧ c.nid < t.nextId ∧
      t.links.countP (feedsSink c.nid) = 1 := by
  obtain ⟨hfresh, hcomp, hsink⟩ := h
  obtain ⟨c, hfind, -, -⟩ := find?_eq_foldl_last_of_countP_one hcomp
  have hcmem : c ∈ t.nodes := List.mem_of_find?_eq_some hfind
  refine ⟨hfresh, hcomp, c, hfind, hfresh c hcmem, ?_⟩
  simp only [sinkLinkCount, hfind] at hsink
  exact hsink

theorem bloom_preserves {t : NodeTree} (h : graphInv t) :
    graphInvO (add_bloom_glare (some t)).1 := by
  obtain ⟨hfresh, hcomp, c, hfind, hclt, hsink⟩ := graphInv_dest h
  cases hrl : t.nodes.find? (fun n => n.ntype == "R_LAYERS") with
  | none =>
    simp only [add_bloom_glare, hrl]
    exact h
  | some rl =>
    have hfind1 : List.find? isComposite (t.nodes ++ [(⟨t.nextId, "GLARE"⟩ : CNode)]) = some c :=
      find?_append_some _ _ hfind
    simp only [add_bloom_glare, newNode, newLink, removeSinkLinks, hrl, hfind1]
    apply graphInv_mk t.nodes t.nextId 1 _ c [⟨t.nextId, "GLARE"⟩] hfind hfresh hcomp
    · intro n hn
      simp only [List.mem_singleton] at hn
      subst hn
      exact Nat.lt_succ_self _
    · intro n hn
      simp only [List.mem_singleton] at hn
      subst hn
      rfl
    · have hne : (t.nextId == c.nid) = false := by
        simp only [beq_eq_false_iff_ne, ne_eq]
        omega
      rw [List.countP_append, List.countP_append, countP_filter_not]
      simp [List.countP_cons, feedsSink, hne]

theorem aberration_preserves {t : NodeTree} (h : graphInv t) :
    graphInvO (add_chromatic_aberration (some t)).1 := by
  obtain ⟨hfresh, hcomp, c, hfind, hclt, hsink⟩ := graphInv_dest h
  obtain ⟨l0, hl0, -, -⟩ := find?_eq_foldl_last_of_countP_one hsink
  have hfeeder : findSinkFeeder t c.nid = some (l0.fromNode, l0.fromSocket) := by
    simp [findSinkFeeder, hl0]
  simp only [add_chromatic_aberration, hfind, hfeeder, removeFirstSinkLink, newNode, newLink]
  apply graphInv_mk t.nodes t.nextId 1 _ c [⟨t.nextId, "LENSDIST"⟩] hfind hfresh hcomp
  · intro n hn
    simp only [List.mem_singleton] at hn
    subst hn
    exact Nat.lt_succ_self _
  · intro n hn
    simp only [List.mem_singleton] at hn
    subst hn
    rfl
  · have hne : (t.nextId == c.nid) = false := by
      simp only [beq_eq_false_iff_ne, ne_eq]
      omega
    simp only [List.countP_append]
    rw [countP_eraseP_of_countP_eq_one _ _ hsink]
    simp [List.countP_cons, feedsSink, hne]

theorem film_grain_preserves {t : NodeTree} (h : graphInv t) :
    graphInvO (add_film_grain (some t)).1 := by
  obtain ⟨hfresh, hcomp, c, hfind, hclt, hsink⟩ := graphInv_dest h
  obtain ⟨l0, hl0, -, -⟩ := find?_eq_foldl_last_of_countP_one hsink
  have hfeeder : findSinkFeeder t c.nid = some (l0.fromNode, l0.fromSocket) := by
    simp [findSinkFeeder, hl0]
  simp only [add_film_grain, hfind, hfeeder, removeFirstSinkLink, newNode, newLink]
  simp only [List.append_assoc, List.singleton_append]
  apply graphInv_mk t.nodes t.nextId 2 _ c
    [⟨t.nextId, "TEXTURE"⟩, ⟨t.nextId + 1, "MIX_RGB"⟩] hfind hfresh hcomp
  · intro n hn
    simp only [List.mem_cons, List.mem_singleton] at hn
    rcases hn with hn | hn | hn
    · subst hn; exact (by omega : t.nextId < t.nextId + 2)
    · subst hn; exact (by omega : t.nextId + 1 < t.nextId + 2)
    · cases hn
  · intro n hn
    simp only [List.mem_cons, List.mem_singleton] at hn
    rcases hn with hn | hn | hn
    · subst hn; rfl
    · subst hn; rfl
    · cases hn
  · have hne : (t.nextId + 1 == c.nid) = false := by
      simp only [beq_eq_false_iff_ne, ne_eq]
      omega
    simp only [List.countP_append]
    rw [countP_eraseP_of_countP_eq_one _ _ hsink]
    simp [List.countP_cons, feedsSink, hne]

theorem sharpen_preserves {t : NodeTree} (h : graphInv t) :
    graphInvO (add_sharpen (some t)).1 := by
  obtain ⟨hfresh, hcomp, c, hfind, hclt, hsink⟩ := graphInv_dest h
  obtain ⟨l0, hl0, -, -⟩ := find?_eq_foldl_last_of_countP_one hsink
  have hfeeder : findSinkFeeder t c.nid = some (l0.fromNode, l0.fromSocket) := by
    simp [findSinkFeeder, hl0]
  simp only [add_sharpen, hfind, hfeeder, removeFirstSinkLink, newNode, newLink]
  simp only [List.append_assoc, List.singleton_append]
  apply graphInv_mk t.nodes t.nextId 2 _ c
    [⟨t.nextId, "FILTER"⟩, ⟨t.nextId + 1, "MIX_RGB"⟩] hfind hfresh hcomp
  · intro n hn
    simp only [List.mem_cons, List.mem_singleton] at hn
    rcases hn with hn | hn | hn
    · subst hn; exact (by omega : t.nextId < t.nextId + 2)
    · subst hn; exact (by omega : t.nextId + 1 < t.nextId + 2)
    · cases hn
  · intro n hn
    simp only [List.mem_cons, List.mem_singleton] at hn
    rcases hn with hn | hn | hn
    · subst hn; rfl
    · subst hn; rfl
    · cases hn
  · have hne : (t.nextId == c.nid) = false := by
      simp only [beq_eq_false_iff_ne, ne_eq]
      omega
    have hne2 : (t.nextId + 1 == c.nid) = false := by
      simp only [beq_eq_false_iff_ne, ne_eq]
      omega
    simp only [List.countP_append]
    rw [countP_eraseP_of_countP_eq_one _ _ hsink]
    simp [List.countP_cons, feedsSink, hne, hne2]

theorem foldl_ccStep_snd (ns : List CNode) (acc : Option CNode × Option CNode) :
    (ns.foldl ccStep acc).2 =
      ns.foldl (fun a n => if isComposite n then some n else a) acc.2 := by
  induction ns generalizing acc with
  | nil => rfl
  | cons x xs ih =>
    rw [List.foldl_cons, List.foldl_cons, ih]
    rfl

theorem color_correction_preserves {t : NodeTree} (h : graphInv t) :
    graphInvO (add_color_correction (some t)).1 := by
  obtain ⟨hfresh, hcomp, c, hfind, hclt, hsink⟩ := graphInv_dest h
  have hcomp3 : (t.nodes ++ [(⟨t.nextId, "BRIGHTCONTRAST"⟩ : CNode),
      ⟨t.nextId + 1, "HUE_SAT"⟩, ⟨t.nextId + 2, "COLORBALANCE"⟩]).countP isComposite = 1 := by
    rw [List.countP_append, hcomp]
    rfl
  obtain ⟨c3, hfind3, -, hfold3⟩ := find?_eq_foldl_last_of_countP_one hcomp3
  have hfind3' : List.find? isComposite (t.nodes ++ [(⟨t.nextId, "BRIGHTCONTRAST"⟩ : CNode),
      ⟨t.nextId + 1, "HUE_SAT"⟩, ⟨t.nextId + 2, "COLORBALANCE"⟩]) = some c :=
    find?_append_some _ _ hfind
  rw [hfind3] at hfind3'
  rw [Option.some.inj hfind3'] at hfold3
  have hscan2 : (ccScan (t.nodes ++ [(⟨t.nextId, "BRIGHTCONTRAST"⟩ : CNode),
      ⟨t.nextId + 1, "HUE_SAT"⟩, ⟨t.nextId + 2, "COLORBALANCE"⟩])).2 = some c := by
    unfold ccScan
    rw [foldl_ccStep_snd]
    exact hfold3
  simp only [add_color_correction, newNode, newLink, removeSinkLinks]
  simp only [List.append_assoc, List.cons_append, List.nil_append, List.singleton_append,
    Nat.add_assoc, Nat.reduceAdd]
  cases hsrc : (ccScan (t.nodes ++ [(⟨t.nextId, "BRIGHTCONTRAST"⟩ : CNode),
      ⟨t.nextId + 1, "HUE_SAT"⟩, ⟨t.nextId + 2, "COLORBALANCE"⟩])).1 with
  | none =>
    have hpair : ccScan (t.nodes ++ [(⟨t.nextId, "BRIGHTCONTRAST"⟩ : CNode),
        ⟨t.nextId + 1, "HUE_SAT"⟩, ⟨t.nextId + 2, "COLORBALANCE"⟩]) = (none, some c) :=
      Prod.ext hsrc hscan2
    simp only [hpair]
    apply graphInv_mk t.nodes t.nextId 3 _ c
      [⟨t.nextId, "BRIGHTCONTRAST"⟩, ⟨t.nextId + 1, "HUE_SAT"⟩, ⟨t.nextId + 2, "COLORBALANCE"⟩]
      hfind hfresh hcomp
    · intro n hn
      simp only [List.mem_cons, List.mem_singleton] at hn
      rcases hn with hn | hn | hn | hn
      · subst hn; exact (by omega : t.nextId < t.nextId + 3)
      · subst hn; exact (by omega : t.nextId + 1 < t.nextId + 3)
      · subst hn; exact (by omega : t.nextId + 2 < t.nextId + 3)
      · cases hn
    · intro n hn
      simp only [List.mem_cons, List.mem_singleton] at hn
      rcases hn with hn | hn | hn | hn
      · subst hn; rfl
      · subst hn; rfl
      · subst hn; rfl
      · cases hn
    · exact hsink
  | some src =>
    have hpair : ccScan (t.nodes ++ [(⟨t.nextId, "BRIGHTCONTRAST"⟩ : CNode),
        ⟨t.nextId + 1, "HUE_SAT"⟩, ⟨t.nextId + 2, "COLORBALANCE"⟩]) = (some src, some c) :=
      Prod.ext hsrc hscan2
    simp only [hpair]
    apply graphInv_mk t.nodes t.nextId 3 _ c
      [⟨t.nextId, "BRIGHTCONTRAST"⟩, ⟨t.nextId + 1, "HUE_SAT"⟩, ⟨t.nextId + 2, "COLORBALANCE"⟩]
      hfind hfresh hcomp
    · intro n hn
      simp only [List.mem_cons, List.mem_singleton] at hn
      rcases hn with hn | hn | hn | hn
      · subst hn; exact (by omega : t.nextId < t.nextId + 3)
      · subst hn; exact (by omega : t.nextId + 1 < t.nextId + 3)
      · subst hn; exact (by omega : t.nextId + 2 < t.nextId + 3)
      · cases hn
    · intro n hn
      simp only [List.mem_cons, List.mem_singleton] at hn
      rcases hn with hn | hn | hn | hn
      · subst hn; rfl
      · subst hn; rfl
      · subst hn; rfl
      · cases hn
    · have hne0 : (t.nextId == c.nid) = false := by
        simp only [beq_eq_false_iff_ne, ne_eq]
        omega
      have hne1 : (t.nextId + 1 == c.nid) = false := by
        simp only [beq_eq_false_iff_ne, ne_eq]
        omega
      have hne2 : (t.nextId + 2 == c.nid) = false := by
        simp only [beq_eq_false_iff_ne, ne_eq]
        omega
      rw [List.countP_append, countP_filter_not]
      simp [List.countP_cons, feedsSink, hne0, hne1, hne2]

theorem vignette_preserves {t : NodeTree} (h : graphInv t) :
    graphInvO (add_vignette (some t)).1 := by
  obtain ⟨hfresh, hcomp, c, hfind, hclt, hsink⟩ := graphInv_dest h
  obtain ⟨l0, hl0, -, -⟩ := find?_eq_foldl_last_of_countP_one hsink
  have hfeeder : findSinkFeeder t c.nid = some (l0.fromNode, l0.fromSocket) := by
    simp [findSinkFeeder, hl0]
  simp only [add_vignette, hfind, hfeeder, removeFirstSinkLink, newNode, newLink]
  simp only [List.append_assoc, List.singleton_append]
  apply graphInv_mk t.nodes t.nextId 3 _ c
    [⟨t.nextId, "ELLIPSE_MASK"⟩, ⟨t.nextId + 1, "INVERT"⟩, ⟨t.nextId + 2, "MIX_RGB"⟩]
    hfind hfresh hcomp
  · intro n hn
    simp only [List.mem_cons, List.mem_singleton] at hn
    rcases hn with hn | hn | hn | hn
    · subst hn; exact (by omega : t.nextId < t.nextId + 3)
    · subst hn; exact (by omega : t.nextId + 1 < t.nextId + 3)
    · subst hn; exact (by omega : t.nextId + 2 < t.nextId + 3)
    · cases hn
  · intro n hn
    simp only [List.mem_cons, List.mem_singleton] at hn
    rcases hn with hn | hn | hn | hn
    · subst hn; rfl
    · subst hn; rfl
    · subst hn; rfl
    · cases hn
  · have hne : (t.nextId + 2 == c.nid) = false := by
      simp only [beq_eq_false_iff_ne, ne_eq]
      omega
    simp only [List.countP_append]
    rw [countP_eraseP_of_countP_eq_one _ _ hsink]
    simp [List.countP_cons, feedsSink, hne]

/-- C3: every effect insertion preserves the invariant that there is exactly
one composite node and exactly one link feeding its Image input (on any
well-formed graph, in particular on every graph reachable from
`setup_extended_compositor`). -/
theorem effect_insertions_preserve_sink_invariant {t : NodeTree} (h : graphInv t) :
    graphInvO (add_bloom_glare (some t)).1 ∧
    graphInvO (add_color_correction (some t)).1 ∧
    graphInvO (add_vignette (some t)).1 ∧
    graphInvO (add_film_grain (some t)).1 ∧
    graphInvO (add_chromatic_aberration (some t)).1 ∧
    graphInvO (add_sharpen (some t)).1 :=
  ⟨bloom_preserves h, color_correction_preserves h, vignette_preserves h,
   film_grain_preserves h, aberration_preserves h, sharpen_preserves h⟩

/-- Witness: the freshly initialized compositor graph satisfies the invariant
and each insertion keeps it. -/
theorem effect_insertions_preserve_sink_invariant_witness :
    graphInvO (add_bloom_glare (some setup_extended_compositor)).1 ∧
    graphInvO (add_color_correction (some setup_extended_compositor)).1 ∧
    graphInvO (add_vignette (some setup_extended_compositor)).1 ∧
    graphInvO (add_film_grain (some setup_extended_compositor)).1 ∧
    graphInvO (add_chromatic_aberration (some setup_extended_compositor)).1 ∧
    graphInvO (add_sharpen (some setup_extended_compositor)).1 :=
  effect_insertions_preserve_sink_invariant (by decide)

/-! ## Pixel normalisation and the render pixel pipeline (`core/rendering.py`)

Pixel floats are modelled by rationals: the claims about them only involve
ordering, clamping, scaling by 255 and truncation.  `np.clip(a, 0, 1)` is
`min 1 (max 0 v)`, and `.astype(np.uint8)` truncates toward zero, which on the
clipped non-negative values coincides with the floor. -/

def clip01 (v : ℚ) : ℚ := min 1 (max 0 v)

def toByte (v : ℚ) : ℤ := (clip01 v * 255).floor

def normalizeRow (row : List ℚ) : List ℤ := row.map toByte

theorem rat_floor_eq_floor (q : ℚ) : q.floor = ⌊q⌋ := by
  rw [Rat.floor_def, Rat.floor_def']

theorem toByte_nonneg (v : ℚ) : 0 ≤ toByte v := by
  unfold toByte
  rw [rat_floor_eq_floor]
  apply Int.le_floor.2
  have h0 : (0 : ℚ) ≤ clip01 v := le_min (by norm_num) (le_max_left 0 v)
  push_cast
  nlinarith

theorem toByte_le (v : ℚ) : toByte v ≤ 255 := by
  unfold toByte
  rw [rat_floor_eq_floor]
  have h1 : clip01 v ≤ 1 := min_le_left _ _
  calc ⌊clip01 v * 255⌋ ≤ ⌊(255 : ℚ)⌋ := Int.floor_le_floor (by nlinarith)
    _ = 255 := by norm_num

/-- `reshape((height, width, 4))`: `height` rows of `width * 4` floats. -/
def reshapeRows (width height : Nat) (px : List ℚ) : List (List ℚ) :=
  (List.range height).map (fun i => (px.drop (i * (width * 4))).take (width * 4))

/-- `(np.clip(pixels_array, 0, 1) * 255).astype(np.uint8)` followed by
`np.flipud` (rendering.py lines 293–295 and 344–346). -/
def renderBufferOutput (rows : List (List ℚ)) : List (List ℤ) :=
  (rows.map normalizeRow).reverse

/-! ### Scene and render environment

The engine scene as far as the render path touches it.  The camera's look-at
rotation is handled by the engine (`mathutils`) and never read back, so only
the location is modelled.  External outcomes of engine calls (renders,
image loads) are supplied by environment records: a `Bool` field models
whether the call raises, `Option`/list fields model the data it produces. -/

structure Camera where
  location : ℝ × ℝ × ℝ

structure Scene where
  camera : Option Camera
  resolutionX : Nat
  resolutionY : Nat
  filepath : String

/-- Outcomes of the external calls made by `_render_to_pixels_file_based`. -/
structure FileEnv where
  renderOk : Bool
  loadOk : Bool
  imgW : Nat
  imgH : Nat
  imgPixels : List ℚ
  foreachOk : Bool

/-- The `try:` body of `_render_to_pixels_file_based` (lines 321–355);
`none` models an exception, caught by the `except` clause. -/
def renderFileBasedTry (env : FileEnv) (fs : List String) (tmp : String) :
    Option (Option (List (List ℤ)) × Nat × Nat) :=
  if !env.renderOk then none
  else if !(fs.contains tmp) then some (none, 0, 0)
  else if !env.loadOk then none
  else if env.imgW = 0 || env.imgH = 0 || env.imgPixels.isEmpty then some (none, 0, 0)
  else if !env.foreachOk then none
  else some (some (renderBufferOutput (reshapeRows env.imgW env.imgH
    (env.imgPixels.take (env.imgH * env.imgW * 4)))), env.imgW, env.imgH)

/-- `Path(temp_file).unlink(missing_ok=True)`. -/
def removeFile (tmp : String) (fs : List String) : List String :=
  fs.filter (fun f => !(f == tmp))

/-- `_render_to_pixels_file_based` (lines 316–358).  The filesystem is the
list of existing file names; `tmp` is the unique name handed out by
`tempfile.NamedTemporaryFile(delete=False)`, which creates the file at entry.
The `finally` clause removes it on every exit path. -/
def render_to_pixels_file_based (env : FileEnv) (scene : Scene) (fs : List String)
    (tmp : String) : (Option (List (List ℤ)) × Nat × Nat) × Scene × List String :=
  let fs1 := tmp :: fs
  let scene1 := { scene with filepath := tmp }
  let result := match renderFileBasedTry env fs1 tmp with
    | some r => r
    | none => (none, 0, 0)
  (result, scene1, removeFile tmp fs1)

/-- Outcomes of the external calls made by the memory path of
`render_to_pixels`. -/
structure MemEnv where
  renderOk : Bool
  memPixels : Option (List ℚ)
  foreachOk : Bool
  fileEnv : FileEnv

/-- `render_to_pixels` (lines 246–313): no camera → `(None, 0, 0)`; otherwise
try the memory path (render with empty filepath, read the Render Result
image back if its pixel buffer is populated and large enough), falling back
to the file-based path on any failure.  The filepath is saved and restored
around the memory path, so the scene is returned unchanged there. -/
def render_to_pixels (env : MemEnv) (scene : Scene) (fs : List String) (tmp : String) :
    (Option (List (List ℤ)) × Nat × Nat) × Scene × List String :=
  match scene.camera with
  | none => ((none, 0, 0), scene, fs)
  | some _ =>
    let width := scene.resolutionX
    let height := scene.resolutionY
    if env.renderOk then
      match env.memPixels with
      | some px =>
        if !px.isEmpty && decide (height * width * 4 ≤ px.length) && env.foreachOk then
          ((some (renderBufferOutput (reshapeRows width height (px.take (height * width * 4)))),
            width, height), scene, fs)
        else
          render_to_pixels_file_based env.fileEnv scene fs tmp
      | none => render_to_pixels_file_based env.fileEnv scene fs tmp
    else
      render_to_pixels_file_based env.fileEnv scene fs tmp

/-- `setup_camera(distance, target)` (camera.py lines 11–38): removes any
existing camera and creates one at the default spherical coordinates
(elevation `1.1`, azimuth `0.785`) around the target. -/
noncomputable def setup_camera (distance : ℝ) (target : ℝ × ℝ × ℝ) (scene : Scene) : Scene :=
  { scene with camera := some ⟨sphericalToCartesian distance 1.1 0.785 target⟩ }

/-- `update_camera_spherical` (camera.py lines 59–84): creates a default
camera via `setup_camera()` when none exists, then moves the camera to the
spherical position and returns `True`. -/
noncomputable def update_camera_spherical (distance angle_x angle_z : ℝ)
    (target : ℝ × ℝ × ℝ) (scene : Scene) : Bool × Scene :=
  let scene1 := if scene.camera.isNone then setup_camera 8 (0, 0, 0) scene else scene
  match scene1.camera with
  | none => (false, scene1)
  | some _ =>
    (true, { scene1 with camera := some ⟨sphericalToCartesian distance angle_x angle_z target⟩ })

/-- C4: every byte produced by the pixel-normalisation step lies in
`[0, 255]`; the over-bright value `2.0` maps to `255`; and the output is the
vertically flipped normalised buffer (row `i` of the output is normalised
row `length - 1 - i` of the input). -/
theorem pixel_normalization_clamps (rows : List (List ℚ)) :
    (∀ r ∈ renderBufferOutput rows, ∀ v ∈ r, 0 ≤ v ∧ v ≤ 255) ∧
    toByte 2 = 255 ∧
    (∀ i : Nat, i < rows.length →
      (renderBufferOutput rows).get? i = (rows.get? (rows.length - 1 - i)).map normalizeRow) := by
  refine ⟨?_, ?_, ?_⟩
  · intro r hr v hv
    rw [renderBufferOutput, List.mem_reverse] at hr
    obtain ⟨row, -, rfl⟩ := List.mem_map.1 hr
    simp only [normalizeRow] at hv
    obtain ⟨u, -, rfl⟩ := List.mem_map.1 hv
    exact ⟨toByte_nonneg u, toByte_le u⟩
  · norm_num [toByte, clip01, rat_floor_eq_floor]
  · intro i hi
    rw [renderBufferOutput, List.get?_reverse (by simpa using hi)]
    simp [List.get?_map]

/-- Witness for `pixel_normalization_clamps` on the single over-bright pixel
buffer `[[2.0]]`. -/
theorem pixel_normalization_clamps_witness :
    (0 ≤ (255 : ℤ) ∧ (255 : ℤ) ≤ 255) ∧ toByte 2 = 255 ∧
    (renderBufferOutput [[(2 : ℚ)]]).get? 0
      = ([[(2 : ℚ)]].get? ([[(2 : ℚ)]].length - 1 - 0)).map normalizeRow := by
  obtain ⟨h1, h2, h3⟩ := pixel_normalization_clamps [[(2 : ℚ)]]
  have hb : renderBufferOutput [[(2 : ℚ)]] = [[255]] := by
    simp [renderBufferOutput, normalizeRow]
    norm_num [toByte, clip01, rat_floor_eq_floor]
  refine ⟨h1 [255] ?_ 255 ?_, h2, h3 0 (by norm_num)⟩
  · rw [hb]
    exact List.mem_singleton_self _
  · exact List.mem_singleton_self _

theorem contains_removeFile (tmp : String) (fs : List String) :
    (removeFile tmp fs).contains tmp = false := by
  induction fs with
  | nil => rfl
  | cons x xs ih =>
    rw [removeFile, List.filter_cons]
    by_cases hx : (x == tmp) = true
    · simp only [hx, Bool.not_true, Bool.false_eq_true, if_false]
      simp only [removeFile] at ih
      exact ih
    · have hx' : (x == tmp) = false := by
        revert hx
        cases x == tmp <;> simp
      have htm : (tmp == x) = false := by
        simp only [beq_eq_false_iff_ne, ne_eq] at hx' ⊢
        exact fun hy => hx' hy.symm
      simp only [hx', Bool.not_false, if_true]
      rw [List.contains_cons, htm, Bool.false_or]
      simp only [removeFile] at ih
      exact ih

/-- C7: the temporary file created at entry of the file-based fallback is
gone from the filesystem on every exit path of the function — pixel buffer
returned, soft failure `(None, 0, 0)`, or an exception caught by the
`except` clause — because the `finally` clause unlinks it unconditionally. -/
theorem temp_file_always_removed (env : FileEnv) (scene : Scene) (fs : List String)
    (tmp : String) :
    ((render_to_pixels_file_based env scene fs tmp).2.2).contains tmp = false := by
  simp only [render_to_pixels_file_based]
  exact contains_removeFile tmp (tmp :: fs)

/-- A scene without a camera, as handed to the render path. -/
def noCameraScene : Scene :=
  { camera := none, resolutionX := 4, resolutionY := 4, filepath := "" }

/-- A fully successful file-render environment for a 4×4 image. -/
def sampleFileEnv : FileEnv :=
  { renderOk := true, loadOk := true, imgW := 4, imgH := 4,
    imgPixels := List.replicate 64 1, foreachOk := true }

/-- A fully successful render environment. -/
def sampleEnv : MemEnv :=
  { renderOk := true, memPixels := some (List.replicate 64 1), foreachOk := true,
    fileEnv := sampleFileEnv }

/-- C5 (counterexample): invoking `render_to_pixels` on a camera-less scene —
even in an environment where every render call would succeed — returns the
failure triple `(None, 0, 0)`, does NOT create any camera (the scene comes
back with `camera = none`), and an identical retry fails the same way;
`render_to_pixels` itself performs no recovery. -/
theorem render_no_camera_cex :
    (render_to_pixels sampleEnv noCameraScene [] "tmp.png").1 = (none, 0, 0) ∧
    (render_to_pixels sampleEnv noCameraScene [] "tmp.png").2.1.camera = none ∧
    (render_to_pixels sampleEnv
      (render_to_pixels sampleEnv noCameraScene [] "tmp.png").2.1 [] "tmp.png").1
      = (none, 0, 0) :=
  ⟨rfl, rfl, rfl⟩

/-- C5 (amended): `render_to_pixels` with no camera returns `(None, 0, 0)`
leaving the scene untouched; the auto-creation recovery lives in
`update_camera_spherical`, which creates a default camera when none exists
and repositions it, returning `True`; and once a camera is present
`render_to_pixels` passes the camera check and succeeds whenever the render
environment does. -/
theorem render_no_camera_amended :
    (∀ (env : MemEnv) (scene : Scene) (fs : List String) (tmp : String),
      scene.camera = none →
      render_to_pixels env scene fs tmp = ((none, 0, 0), scene, fs)) ∧
    (∀ (d ax az : ℝ) (tgt : ℝ × ℝ × ℝ) (scene : Scene),
      scene.camera = none →
      (update_camera_spherical d ax az tgt scene).1 = true ∧
      (update_camera_spherical d ax az tgt scene).2.camera
        = some ⟨sphericalToCartesian d ax az tgt⟩) ∧
    (∀ (env : MemEnv) (scene : Scene) (fs : List String) (tmp : String) (px : List ℚ),
      scene.camera.isSome = true → env.renderOk = true → env.memPixels = some px →
      px.isEmpty = false → scene.resolutionY * scene.resolutionX * 4 ≤ px.length →
      env.foreachOk = true →
      (render_to_pixels env scene fs tmp).1.1.isSome = true) := by
  refine ⟨?_, ?_, ?_⟩
  · intro env scene fs tmp h
    simp [render_to_pixels, h]
  · intro d ax az tgt scene h
    constructor <;> simp [update_camera_spherical, setup_camera, h]
  · intro env scene fs tmp px hsome hre hmem hempty hlen hforeach
    obtain ⟨cam, hcam⟩ := Option.isSome_iff_exists.1 hsome
    simp [render_to_pixels, hcam, hre, hmem, hempty, decide_eq_true hlen, hforeach]

/-- A scene holding a camera, for the successful-render part of C5. -/
noncomputable def cameraScene : Scene :=
  { camera := some ⟨(0, 0, 0)⟩, resolutionX := 1, resolutionY := 1, filepath := "" }

/-- A file-render environment for a 1×1 image. -/
def smallFileEnv : FileEnv :=
  { renderOk := true, loadOk := true, imgW := 1, imgH := 1,
    imgPixels := List.replicate 4 1, foreachOk := true }

/-- A render environment whose memory path succeeds for a 1×1 image. -/
def smallMemEnv : MemEnv :=
  { renderOk := true, memPixels := some (List.replicate 4 1), foreachOk := true,
    fileEnv := smallFileEnv }

/-- Witness for `render_no_camera_amended` at concrete scenes and
environments. -/
theorem render_no_camera_amended_witness :
    render_to_pixels sampleEnv noCameraScene [] "t.png" = ((none, 0, 0), noCameraScene, []) ∧
    ((update_camera_spherical 1 1 1 (0, 0, 0) noCameraScene).1 = true ∧
      (update_camera_spherical 1 1 1 (0, 0, 0) noCameraScene).2.camera
        = some ⟨sphericalToCartesian 1 1 1 (0, 0, 0)⟩) ∧
    (render_to_pixels smallMemEnv cameraScene [] "t.png").1.1.isSome = true := by
  obtain ⟨h1, h2, h3⟩ := render_no_camera_amended
  exact ⟨h1 sampleEnv noCameraScene [] "t.png" rfl,
    h2 1 1 1 (0, 0, 0) noCameraScene rfl,
    h3 smallMemEnv cameraScene [] "t.png" (List.replicate 4 1) rfl rfl rfl rfl
      (by decide) rfl⟩

/-! ## Widget state (`widget.py`)

Only the synchronized traits are modelled; camera angles are reals because
they are fed to and read back from the trigonometric camera code.  The
external effects of the full initialization path (scene clearing, lighting,
world background and test geometry — the latter live in modules outside
`src/` — plus base64 encoding and the timing text of the status string) are
supplied by an `InitEnv` record. -/

structure WidgetState where
  image_data : String
  width : Nat
  height : Nat
  status : String
  is_initialized : Bool
  camera_distance : ℝ
  camera_angle_x : ℝ
  camera_angle_z : ℝ
  render_engine : String
  render_device : String

/-- Trait defaults (widget.py lines 107–120). -/
noncomputable def defaultWidget : WidgetState :=
  { image_data := "", width := 512, height := 512, status := "Not initialized",
    is_initialized := false, camera_distance := 8.0, camera_angle_x := 1.1,
    camera_angle_z := 0.785, render_engine := "BLENDER_EEVEE_NEXT",
    render_device := "CPU" }

structure InitEnv where
  clearScene : Scene → Scene
  buildSceneContent : Scene → Scene
  renderEnv : MemEnv
  fs : List String
  tmpName : String
  b64 : List (List ℤ) → String
  statusFor : Nat → Nat → String

noncomputable def cameraLocation (s : Scene) : ℝ × ℝ × ℝ :=
  match s.camera with
  | some c => c.location
  | none => (0, 0, 0)

/-- `BpyWidget._update_camera_and_render` (widget.py lines 278–302): update
the camera from the traits, render, then either store the encoded buffer and
a success status or set the failure status. -/
noncomputable def updateCameraAndRender (env : InitEnv) (w : WidgetState) (s : Scene) :
    WidgetState × Scene :=
  let r := update_camera_spherical w.camera_distance w.camera_angle_x w.camera_angle_z (0, 0, 0) s
  let rr := render_to_pixels env.renderEnv r.2 env.fs env.tmpName
  match rr.1.1 with
  | some buf =>
    ({ w with image_data := env.b64 buf, status := env.statusFor rr.1.2.1 rr.1.2.2 }, rr.2.1)
  | none => ({ w with status := "Render failed" }, rr.2.1)

/-- `BpyWidget.initialize` (widget.py lines 321–392).  When the widget is
already initialized only the status is set (lines 323–325).  Otherwise the
scene is cleared, render resolution configured, the default camera created
and its spherical coordinates read back into the camera traits, the scene
content built, the initialized flag set, and an initial camera-update +
render performed. -/
noncomputable def initializeWidget (env : InitEnv) (w : WidgetState) (s : Scene) :
    WidgetState × Scene :=
  if w.is_initialized then ({ w with status := "Already initialized" }, s)
  else
    let w1 := { w with status := "Setting up scene..." }
    let s1 := env.clearScene s
    let s2 := { s1 with resolutionX := w.width, resolutionY := w.height }
    let s3 := setup_camera 8 (0, 0, 0) s2
    let sph := calculate_spherical_from_position (cameraLocation s3) (0, 0, 0)
    let w2 := { w1 with
      camera_distance := sph.1, camera_angle_x := sph.2.1, camera_angle_z := sph.2.2 }
    let s4 := env.buildSceneContent s3
    let w3 := { w2 with is_initialized := true }
    updateCameraAndRender env w3 s4

/-- `BpyWidget.set_render_engine` (widget.py lines 416–421): only
`BLENDER_EEVEE_NEXT` and `CYCLES` are accepted; anything else is logged and
ignored. -/
def set_render_engine (w : WidgetState) (engine : String) : WidgetState :=
  if engine ∈ ["BLENDER_EEVEE_NEXT", "CYCLES"] then { w with render_engine := engine }
  else w

/-- C9: calling `initialize` on an already-initialized widget only sets the
status to "Already initialized", leaving every other widget trait and the
whole scene untouched — no scene mutation and no re-render. -/
theorem initialize_already_initialized (env : InitEnv) (w : WidgetState) (s : Scene)
    (h : w.is_initialized = true) :
    initializeWidget env w s = ({ w with status := "Already initialized" }, s) := by
  simp [initializeWidget, h]

/-- A trivial environment for exercising `initialize`. -/
def trivialInitEnv : InitEnv :=
  { clearScene := id, buildSceneContent := id, renderEnv := sampleEnv, fs := [],
    tmpName := "t.png", b64 := fun _ => "", statusFor := fun _ _ => "Rendered" }

/-- Witness for `initialize_already_initialized` on the default widget with
the initialized flag set. -/
theorem initialize_already_initialized_witness :
    initializeWidget trivialInitEnv { defaultWidget with is_initialized := true } noCameraScene
      = ({ defaultWidget with is_initialized := true, status := "Already initialized" },
         noCameraScene) :=
  initialize_already_initialized trivialInitEnv
    { defaultWidget with is_initialized := true } noCameraScene rfl

/-- C10: `set_render_engine` ignores any string other than the two accepted
engines (leaving the trait unchanged), the accepted-engine invariant is
preserved by every call, and the default trait value is one of the two. -/
theorem set_render_engine_invalid_ignored :
    (∀ (w : WidgetState) (e : String), e ∉ ["BLENDER_EEVEE_NEXT", "CYCLES"] →
      set_render_engine w e = w) ∧
    (∀ (w : WidgetState) (e : String),
      w.render_engine = "BLENDER_EEVEE_NEXT" ∨ w.render_engine = "CYCLES" →
      ((set_render_engine w e).render_engine = "BLENDER_EEVEE_NEXT" ∨
        (set_render_engine w e).render_engine = "CYCLES")) ∧
    defaultWidget.render_engine = "BLENDER_EEVEE_NEXT" := by
  refine ⟨fun w e he => by simp [set_render_engine, he], fun w e hw => ?_, rfl⟩
  by_cases h : e ∈ ["BLENDER_EEVEE_NEXT", "CYCLES"]
  · simp only [set_render_engine, if_pos h]
    simpa using h
  · simp only [set_render_engine, if_neg h]
    exact hw

/-- Witness for `set_render_engine_invalid_ignored` on the default widget
and the invalid engine string "FOO". -/
theorem set_render_engine_invalid_ignored_witness :
    set_render_engine defaultWidget "FOO" = defaultWidget ∧
    ((set_render_engine defaultWidget "FOO").render_engine = "BLENDER_EEVEE_NEXT" ∨
      (set_render_engine defaultWidget "FOO").render_engine = "CYCLES") := by
  obtain ⟨h1, h2, h3⟩ := set_render_engine_invalid_ignored
  exact ⟨h1 defaultWidget "FOO" (by decide), h2 defaultWidget "FOO" (Or.inl h3)⟩

end BpyWidget
